import Mathlib

/-!
Verification of the discord-claude-bot core (src/src/goals_bot.py).

This file gives a shallow embedding of the two components of the repository
that carry all of its logic:

* the text formatter (CompanyAssistant.clean_text and
  CompanyAssistant.format_section), embedded as pure string functions whose
  primitive operations (replace, strip, split, startswith) follow Python
  string semantics; and

* the per-server JSON store (GoalsDatabase.load_goals / get_goals /
  save_goals) together with the mutation paths _set_objective_impl and
  _add_progress_impl, embedded as explicit state passing over a record that
  holds the in-memory cache and a model of the filesystem (an association
  list from filenames to file contents).  Operations that can fail at the
  filesystem boundary (the backup copy and the final write in save_goals)
  take an explicit outcome parameter; the Python except-branches become the
  corresponding match arms.  All embedded operations are total Lean
  functions, which models the source's behaviour of never raising to the
  caller.

File contents are modelled by the three cases the source distinguishes:
valid JSON holding a document, content that strips to empty, and malformed
content that fails JSON decoding.
-/

namespace GoalsBot

/-! ## Python string primitives -/

/-- Whitespace characters stripped by Python's str.strip(). -/
def isPySpace (c : Char) : Bool :=
  c = ' ' || c = '\t' || c = '\n' || c = '\r' || c = '\x0b' || c = '\x0c'

/-- Drop characters satisfying p from both ends of a character list. -/
def stripListBy (p : Char → Bool) (l : List Char) : List Char :=
  ((l.dropWhile p).reverse.dropWhile p).reverse

/-- Python s.strip() with no argument: strip whitespace from both ends. -/
def pyStrip (s : String) : String :=
  String.mk (stripListBy isPySpace s.data)

/-- Python s.strip(chars): strip any of the given characters from both ends. -/
def pyStripSet (s : String) (cs : List Char) : String :=
  String.mk (stripListBy (fun c => cs.contains c) s.data)

/-- Python s.startswith(p). -/
def pyStartsWith (s p : String) : Bool :=
  p.data.isPrefixOf s.data

/-- Python s[n:] on strings (drop the first n characters). -/
def pyDrop (n : Nat) (s : String) : String :=
  String.mk (s.data.drop n)

/-- Fuel-driven replacement of every non-overlapping occurrence of pat,
scanning left to right, exactly as Python str.replace does for a non-empty
pattern.  The fuel is the length of the scanned list, which suffices since
every step consumes at least one character. -/
def replaceFuel (pat repl : List Char) : Nat → List Char → List Char
  | 0, s => s
  | _ + 1, [] => []
  | fuel + 1, c :: rest =>
    if !pat.isEmpty && pat.isPrefixOf (c :: rest) then
      repl ++ replaceFuel pat repl fuel (rest.drop (pat.length - 1))
    else
      c :: replaceFuel pat repl fuel rest

/-- Python s.replace(pat, repl) for the non-empty patterns used by the bot. -/
def pyReplace (s pat repl : String) : String :=
  String.mk (replaceFuel pat.data repl.data s.data.length s.data)

/-- Python text.split(sep) for a one-character separator: the list of
maximal groups between occurrences of the separator (empty groups kept). -/
def splitOnChar (sep : Char) : List Char → List (List Char)
  | [] => [[]]
  | c :: rest =>
    if c = sep then [] :: splitOnChar sep rest
    else
      match splitOnChar sep rest with
      | [] => [[c]]
      | g :: gs => (c :: g) :: gs

/-- Python text.split with a newline separator, producing strings. -/
def splitLines (s : String) : List String :=
  (splitOnChar '\n' s.data).map (fun l => String.mk l)

/-- Split a character list at the first occurrence of sep, if any;
models Python s.split(sep, 1) succeeding (the "sep in s" test is the
some-ness of the result). -/
def breakAtChar (sep : Char) : List Char → Option (List Char × List Char)
  | [] => none
  | c :: rest =>
    if c = sep then some ([], rest)
    else
      match breakAtChar sep rest with
      | none => none
      | some (a, b) => some (c :: a, b)

/-- Python sep.join(parts). -/
def joinWith (sep : String) : List String → String
  | [] => ""
  | [s] => s
  | s :: rest => s ++ sep ++ joinWith sep rest

/-! ## The formatter (CompanyAssistant.clean_text / format_section) -/

/-- Embeds CompanyAssistant.clean_text: remove TextBlock wrapper artifacts,
unescape literal backslash-n sequences, drop the stray type attribute and
strip bracket/quote framing, in exactly the source's order. -/
def clean_text (text : String) : String :=
  let t := pyReplace text "TextBlock(text='" ""
  let t := pyReplace t "')" ""
  let t := pyReplace t "[TextBlock(text=" ""
  let t := pyReplace t ")]" ""
  let t := pyReplace t "\\n" "\n"
  let t := pyReplace t ", type=\"text\"" ""
  pyStripSet t ['[', ']', '\'']

/-- The section-start test of format_section: the line starts with one of
the three literal markers checked by the source. -/
def isSectionStart (line : String) : Bool :=
  pyStartsWith line "1. " || pyStartsWith line "2. " || pyStartsWith line "3. "

/-- The line-grouping loop of format_section.  Lines are stripped; blank
lines are dropped; a line passing isSectionStart closes the current group
(when non-empty) and starts a new one; every other line is appended to the
current group.  The source joins each group with a newline when it is
appended; here the groups are kept as line lists and joined afterwards. -/
def sectionGroups : List String → List (List String) → List String → List (List String)
  | [], sections, current =>
    if current = [] then sections else sections ++ [current]
  | rawLine :: rest, sections, current =>
    if pyStrip rawLine = "" then sectionGroups rest sections current
    else if isSectionStart (pyStrip rawLine) then
      if current = [] then sectionGroups rest sections [pyStrip rawLine]
      else sectionGroups rest (sections ++ [current]) [pyStrip rawLine]
    else sectionGroups rest sections (current ++ [pyStrip rawLine])

/-- The ordered sections format_section builds from a text. -/
def sectionsOf (text : String) : List String :=
  (sectionGroups (splitLines text) [] []).map (joinWith "\n")

/-- Bullet normalization inside a titled section: a stripped line starting
with a dash, bullet or asterisk marker becomes a bullet line; any other
line is kept as it was. -/
def formatBulletLine (line : String) : String :=
  let t := pyStrip line
  if pyStartsWith t "- " || pyStartsWith t "• " then "• " ++ pyDrop 2 t
  else if pyStartsWith t "* " then "• " ++ pyDrop 2 t
  else line

/-- Formatting of a single section: if it contains a colon, the part before
the first colon becomes a bold heading and the remainder (stripped, with
bullet lines normalized) becomes the body; otherwise the section is kept
as-is.  Both forms end with a blank-line separator. -/
def formatSectionText (sec : String) : String :=
  match breakAtChar ':' sec.data with
  | none => sec ++ "\n\n"
  | some (t, c) =>
    let title := String.mk t
    let content := pyStrip (String.mk c)
    let body := joinWith "\n" ((splitLines content).map formatBulletLine)
    "**" ++ pyStrip title ++ "**\n" ++ body ++ "\n\n"

/-- The greedy chunk-packing loop of format_section: append the formatted
section to the current chunk unless the combined length exceeds the limit,
in which case the current chunk (if non-empty) is closed stripped and the
section starts a new chunk; at the end a non-empty current chunk is closed
stripped. -/
def chunkLoop (maxLen : Nat) : List String → List String → String → List String
  | [], chunks, current =>
    if current = "" then chunks else chunks ++ [pyStrip current]
  | sec :: rest, chunks, current =>
    if maxLen < (current ++ formatSectionText sec).length then
      if current = "" then chunkLoop maxLen rest chunks (formatSectionText sec)
      else chunkLoop maxLen rest (chunks ++ [pyStrip current]) (formatSectionText sec)
    else chunkLoop maxLen rest chunks (current ++ formatSectionText sec)

/-- Embeds CompanyAssistant.format_section: clean the text, split it into
sections, format each section and pack the results greedily into chunks of
at most max_field_length characters where possible. -/
def format_section (text : String) (max_field_length : Nat) : List String :=
  chunkLoop max_field_length (sectionsOf (clean_text text)) [] ""

/-- Total length of the formatted sections of a section list, the length
of the formatted text before chunking. -/
def totalFormattedLength (secs : List String) : Nat :=
  (secs.map (fun s => (formatSectionText s).length)).sum

/-! ## Data model of the per-server store -/

/-- An objective record, as written by _set_objective_impl. -/
structure Objective where
  text : String
  original_text : String
  created_by : String
  created_at : String
  status : String
  deriving DecidableEq, Repr

/-- A progress update record, as written by _add_progress_impl. -/
structure ProgressUpdate where
  objective_id : String
  text : String
  updated_by : String
  updated_at : String
  deriving DecidableEq, Repr

/-- A per-server document: the three top-level keys of the JSON file.
Mappings are insertion-ordered association lists, following Python dicts. -/
structure Doc where
  objectives : List (String × Objective)
  updates : List ProgressUpdate
  metrics : List (String × String)
  deriving DecidableEq, Repr

/-- The default empty document written by load_goals. -/
def default_data : Doc :=
  { objectives := [], updates := [], metrics := [] }

/-- Contents of a backing file, by the cases load_goals distinguishes:
valid JSON holding a document, content that strips to empty, and content
that fails JSON decoding. -/
inductive FileContent where
  | jsonDoc (d : Doc) : FileContent
  | empty : FileContent
  | malformed (s : String) : FileContent
  deriving DecidableEq, Repr

/-! ## Insertion-ordered association lists (Python dict semantics) -/

/-- Lookup of the first binding of a key. -/
def lookupA {α : Type} (k : String) : List (String × α) → Option α
  | [] => none
  | (k2, v) :: rest => if k2 = k then some v else lookupA k rest

/-- Python dict assignment: update the first binding in place, else append. -/
def insertA {α : Type} (k : String) (v : α) : List (String × α) → List (String × α)
  | [] => [(k, v)]
  | (k2, v2) :: rest => if k2 = k then (k, v) :: rest else (k2, v2) :: insertA k v rest

/-- Remove the first binding of a key. -/
def eraseA {α : Type} (k : String) : List (String × α) → List (String × α)
  | [] => []
  | (k2, v) :: rest => if k2 = k then rest else (k2, v) :: eraseA k rest

/-! ## Filesystem model -/

/-- The filesystem: filenames mapped to file contents. -/
abbrev FS := List (String × FileContent)

/-- Read a file if it exists (os.path.exists is some-ness of this). -/
def FS.read (fs : FS) (name : String) : Option FileContent :=
  lookupA name fs

/-- Write a file, creating or overwriting it. -/
def FS.write (fs : FS) (name : String) (c : FileContent) : FS :=
  insertA name c fs

/-- Delete a file. -/
def FS.erase (fs : FS) (name : String) : FS :=
  eraseA name fs

/-- Models os.rename: move a file to a new name (no-op if absent). -/
def FS.rename (fs : FS) (oldName newName : String) : FS :=
  match FS.read fs oldName with
  | some c => FS.write (FS.erase fs oldName) newName c
  | none => fs

/-- Models os.replace: move a file over the destination (no-op if absent). -/
def FS.replace (fs : FS) (src dst : String) : FS :=
  match FS.read fs src with
  | some c => FS.write (FS.erase fs src) dst c
  | none => fs

/-! ## The store (GoalsDatabase) -/

/-- The store together with the world it acts on: the base filename and the
in-memory cache are the GoalsDatabase fields, fs is the filesystem. -/
structure DBState where
  base_filename : String
  server_data : List (String × Doc)
  fs : FS
  deriving DecidableEq, Repr

/-- Embeds GoalsDatabase.get_server_filename. -/
def get_server_filename (base server_id : String) : String :=
  base ++ "_" ++ server_id ++ ".json"

/-- Outcome of the backup-copy step of save_goals (the try around the read
and write of the backup sibling): success, a failure before the backup file
is touched, or a failure leaving partially copied content behind. -/
inductive CopyOutcome where
  | ok : CopyOutcome
  | failNoWrite : CopyOutcome
  | failLeftover (c : FileContent) : CopyOutcome
  deriving DecidableEq, Repr

/-- Outcome of the final serialization step of save_goals: success, or a
failure leaving the given content in the truncated primary file. -/
inductive WriteOutcome where
  | ok : WriteOutcome
  | fail (leftover : FileContent) : WriteOutcome
  deriving DecidableEq, Repr

/-- Embeds GoalsDatabase.load_goals for one server: missing file and file
stripping to empty are replaced by the default document in place; content
failing JSON decoding is renamed to a timestamped quarantine name and the
default document is written.  The now argument is the rendered timestamp.
Returns the loaded document and the resulting filesystem; totality models
the source's guarantee that loading never raises. -/
def load_goals (st : DBState) (server_id now : String) : Doc × FS :=
  let filename := get_server_filename st.base_filename server_id
  match FS.read st.fs filename with
  | none => (default_data, FS.write st.fs filename (FileContent.jsonDoc default_data))
  | some FileContent.empty =>
    (default_data, FS.write st.fs filename (FileContent.jsonDoc default_data))
  | some (FileContent.jsonDoc d) => (d, st.fs)
  | some (FileContent.malformed _) =>
    let backup_name := filename ++ ".backup-" ++ now
    let fs1 :=
      if (FS.read st.fs filename).isSome then FS.rename st.fs filename backup_name
      else st.fs
    (default_data, FS.write fs1 filename (FileContent.jsonDoc default_data))

/-- Embeds GoalsDatabase.get_goals: return the cached document, loading and
caching it first when the server id has not been seen. -/
def get_goals (st : DBState) (server_id now : String) : Doc × DBState :=
  match lookupA server_id st.server_data with
  | some d => (d, st)
  | none =>
    let r := load_goals st server_id now
    (r.1, { st with fs := r.2, server_data := insertA server_id r.1 st.server_data })

/-- Embeds GoalsDatabase.save_goals: no-op for an uncached server id;
otherwise copy the existing primary file to its backup sibling (failures
logged and ignored), then write the document; if the write fails and the
backup sibling exists, move the backup back over the primary.  Totality
models the source's swallowing of all errors. -/
def save_goals (st : DBState) (server_id : String)
    (copyOut : CopyOutcome) (writeOut : WriteOutcome) : DBState :=
  match lookupA server_id st.server_data with
  | none => st
  | some d =>
    let filename := get_server_filename st.base_filename server_id
    let backup_name := filename ++ ".backup"
    let fs1 :=
      match FS.read st.fs filename with
      | none => st.fs
      | some c =>
        match copyOut with
        | CopyOutcome.ok => FS.write st.fs backup_name c
        | CopyOutcome.failNoWrite => st.fs
        | CopyOutcome.failLeftover c2 => FS.write st.fs backup_name c2
    let fs2 :=
      match writeOut with
      | WriteOutcome.ok => FS.write fs1 filename (FileContent.jsonDoc d)
      | WriteOutcome.fail leftover =>
        let fsF := FS.write fs1 filename leftover
        if (FS.read fsF backup_name).isSome then FS.replace fsF backup_name filename
        else fsF
    { st with fs := fs2 }

/-! ## Command implementations touching the store -/

/-- Embeds the database part of CompanyAssistant._set_objective_impl: clean
the model reply, load the server document, assign the identifier as the
decimal string of the current objective count plus one, store the new
objective record and save. -/
def set_objective_impl (st : DBState) (server_id message_content objective_text author now : String)
    (copyOut : CopyOutcome) (writeOut : WriteOutcome) : DBState :=
  let structured_objective := clean_text message_content
  let r := get_goals st server_id now
  let d := r.1
  let st1 := r.2
  let objective_id := Nat.repr (d.objectives.length + 1)
  let obj : Objective :=
    { text := structured_objective, original_text := objective_text,
      created_by := author, created_at := now, status := "active" }
  let d2 := { d with objectives := insertA objective_id obj d.objectives }
  let st2 := { st1 with server_data := insertA server_id d2 st1.server_data }
  save_goals st2 server_id copyOut writeOut

/-- Embeds the database part of CompanyAssistant._add_progress_impl: load
the server document; if the objective id is unknown only report (no
mutation, no save), otherwise append the update and save. -/
def add_progress_impl (st : DBState) (server_id objective_id update_text author now : String)
    (copyOut : CopyOutcome) (writeOut : WriteOutcome) : DBState :=
  let r := get_goals st server_id now
  let d := r.1
  let st1 := r.2
  if (lookupA objective_id d.objectives).isSome then
    let upd : ProgressUpdate :=
      { objective_id := objective_id, text := update_text,
        updated_by := author, updated_at := now }
    let d2 := { d with updates := d.updates ++ [upd] }
    let st2 := { st1 with server_data := insertA server_id d2 st1.server_data }
    save_goals st2 server_id copyOut writeOut
  else st1

/-! ## Concrete states used in witnesses and counterexamples -/

/-- The concrete store state used to refute the empty-file part of the
quarantine claim: one server whose backing file exists and is empty. -/
def emptyFileState : DBState :=
  { base_filename := "goals", server_data := [],
    fs := [("goals_1.json", FileContent.empty)] }

/-- The concrete store state used in the self-healing witness: one server
whose backing file holds malformed content. -/
def malformedFileState : DBState :=
  { base_filename := "goals", server_data := [],
    fs := [("goals_1.json", FileContent.malformed "not json")] }

/-- The concrete store state used in the rollback witness: one cached
server whose backing file holds the last saved document. -/
def savedOnceState : DBState :=
  { base_filename := "goals", server_data := [("1", default_data)],
    fs := [("goals_1.json", FileContent.jsonDoc default_data)] }

/-- The concrete store used in the objective-creation witness. -/
def oneServerState : DBState :=
  { base_filename := "goals", server_data := [("1", default_data)], fs := [] }

/-- A concrete objective record used in witnesses. -/
def sampleObjective : Objective :=
  { text := "t", original_text := "o", created_by := "u",
    created_at := "T", status := "active" }

/-- A concrete progress update used in witnesses. -/
def sampleUpdate : ProgressUpdate :=
  { objective_id := "1", text := "made progress", updated_by := "u", updated_at := "T2" }

/-- A concrete document holding one objective, used in witnesses. -/
def oneObjectiveDoc : Doc :=
  { objectives := [("1", sampleObjective)], updates := [], metrics := [] }

/-- The concrete store used in the progress-update witness: one server with
one objective. -/
def oneObjectiveState : DBState :=
  { base_filename := "goals", server_data := [("1", oneObjectiveDoc)], fs := [] }

/-- A second document, distinct from the default one, used in the
isolation witness. -/
def docB : Doc :=
  { objectives := [], updates := [sampleUpdate], metrics := [] }

/-- The concrete two-server store used in the isolation witness. -/
def twoServerState : DBState :=
  { base_filename := "goals",
    server_data := [("A", default_data), ("B", docB)], fs := [] }

/-! ## Helper lemmas -/

theorem length_dropWhile_le (p : Char → Bool) (l : List Char) :
    (l.dropWhile p).length ≤ l.length := by
  induction l with
  | nil => simp
  | cons c rest ih =>
    by_cases h : p c
    · simp only [List.dropWhile_cons, h, if_true]
      exact Nat.le_trans ih (Nat.le_succ _)
    · simp [List.dropWhile_cons, h]

theorem pyStrip_length_le (s : String) : (pyStrip s).length ≤ s.length := by
  unfold pyStrip stripListBy
  rw [String.length_mk]
  calc (((s.data.dropWhile isPySpace).reverse.dropWhile isPySpace).reverse).length
      = ((s.data.dropWhile isPySpace).reverse.dropWhile isPySpace).length := by
        rw [List.length_reverse]
    _ ≤ (s.data.dropWhile isPySpace).reverse.length := length_dropWhile_le _ _
    _ = (s.data.dropWhile isPySpace).length := by rw [List.length_reverse]
    _ ≤ s.data.length := length_dropWhile_le _ _

theorem empty_append_str (s : String) : "" ++ s = s := by
  cases s with
  | mk l => rfl

theorem append_suffix_ne (s t u : String) (h : t.length ≠ 0) : s ++ t ++ u ≠ s := by
  intro he
  have hl := congrArg String.length he
  rw [String.length_append, String.length_append] at hl
  omega

theorem backup_sibling_ne (fn : String) : fn ++ ".backup" ≠ fn := by
  intro he
  have hl := congrArg String.length he
  rw [String.length_append] at hl
  have h7 : (".backup" : String).length = 7 := by decide
  omega

theorem str_of_data_eq {a b : String} (h : a.data = b.data) : a = b := String.ext h

theorem get_server_filename_inj (base A B : String)
    (h : get_server_filename base A = get_server_filename base B) : A = B := by
  unfold get_server_filename at h
  have hd := congrArg String.data h
  rw [String.data_append, String.data_append, String.data_append, String.data_append] at hd
  have h1 := List.append_cancel_right hd
  have h2 := List.append_cancel_left h1
  exact str_of_data_eq h2

theorem lookupA_insertA_self {α : Type} (k : String) (v : α) (l : List (String × α)) :
    lookupA k (insertA k v l) = some v := by
  induction l with
  | nil => simp [insertA, lookupA]
  | cons p rest ih =>
    obtain ⟨k2, v2⟩ := p
    by_cases h : k2 = k
    · simp [insertA, lookupA, h]
    · simp [insertA, lookupA, h, ih]

theorem lookupA_insertA_ne {α : Type} (k k2 : String) (v : α) (l : List (String × α))
    (h : k2 ≠ k) : lookupA k2 (insertA k v l) = lookupA k2 l := by
  have hk : k ≠ k2 := Ne.symm h
  induction l with
  | nil => simp [insertA, lookupA, hk]
  | cons p rest ih =>
    obtain ⟨k3, v3⟩ := p
    by_cases h3 : k3 = k
    · subst h3
      simp [insertA, lookupA, hk]
    · simp [insertA, lookupA, h3, ih]

theorem lookupA_eraseA_ne {α : Type} (k k2 : String) (l : List (String × α))
    (h : k2 ≠ k) : lookupA k2 (eraseA k l) = lookupA k2 l := by
  have hk : k ≠ k2 := Ne.symm h
  induction l with
  | nil => simp [eraseA]
  | cons p rest ih =>
    obtain ⟨k3, v3⟩ := p
    by_cases h3 : k3 = k
    · subst h3
      simp [eraseA, lookupA, hk]
    · simp [eraseA, lookupA, h3, ih]

theorem insertA_cons_eq {α : Type} (k k2 : String) (v v2 : α) (rest : List (String × α))
    (h : k2 = k) : insertA k v ((k2, v2) :: rest) = (k, v) :: rest := by
  simp [insertA, h]

theorem insertA_cons_ne {α : Type} (k k2 : String) (v v2 : α) (rest : List (String × α))
    (h : ¬k2 = k) : insertA k v ((k2, v2) :: rest) = (k2, v2) :: insertA k v rest := by
  simp [insertA, h]

theorem mem_keys_insertA {α : Type} (k m : String) (v : α) (l : List (String × α))
    (h : m ∈ (insertA k v l).map Prod.fst) : m = k ∨ m ∈ l.map Prod.fst := by
  induction l with
  | nil =>
    simp only [insertA, List.map_cons, List.map_nil, List.mem_singleton] at h
    exact Or.inl h
  | cons p rest ih =>
    obtain ⟨k2, v2⟩ := p
    by_cases h2 : k2 = k
    · rw [insertA_cons_eq k k2 v v2 rest h2] at h
      simp only [List.map_cons, List.mem_cons] at h
      rcases h with h | h
      · exact Or.inl h
      · exact Or.inr (List.mem_cons.mpr (Or.inr h))
    · rw [insertA_cons_ne k k2 v v2 rest h2] at h
      simp only [List.map_cons, List.mem_cons] at h
      rcases h with h | h
      · exact Or.inr (List.mem_cons.mpr (Or.inl h))
      · rcases ih h with h3 | h3
        · exact Or.inl h3
        · exact Or.inr (List.mem_cons.mpr (Or.inr h3))

theorem keys_insertA_nodup {α : Type} (k : String) (v : α) (l : List (String × α))
    (h : (l.map Prod.fst).Nodup) : ((insertA k v l).map Prod.fst).Nodup := by
  induction l with
  | nil => simp [insertA]
  | cons p rest ih =>
    obtain ⟨k2, v2⟩ := p
    simp only [List.map_cons, List.nodup_cons] at h
    by_cases h2 : k2 = k
    · rw [insertA_cons_eq k k2 v v2 rest h2]
      simp only [List.map_cons, List.nodup_cons]
      refine ⟨?_, h.2⟩
      subst h2
      exact h.1
    · rw [insertA_cons_ne k k2 v v2 rest h2]
      simp only [List.map_cons, List.nodup_cons]
      refine ⟨?_, ih h.2⟩
      intro hmem
      rcases mem_keys_insertA k k2 v rest hmem with h3 | h3
      · exact h2 h3
      · exact h.1 h3

theorem quarantine_ne (fn now : String) : fn ++ ".backup-" ++ now ≠ fn :=
  append_suffix_ne fn ".backup-" now (by decide)

theorem save_goals_server_data (st : DBState) (sid : String)
    (co : CopyOutcome) (wo : WriteOutcome) :
    (save_goals st sid co wo).server_data = st.server_data ∧
    (save_goals st sid co wo).base_filename = st.base_filename := by
  unfold save_goals
  cases lookupA sid st.server_data <;> simp

theorem save_goals_fresh_write (st : DBState) (sid : String) (d : Doc) (co : CopyOutcome)
    (hd : lookupA sid st.server_data = some d)
    (hf : FS.read st.fs (get_server_filename st.base_filename sid) = none) :
    save_goals st sid co WriteOutcome.ok =
      { st with fs := (FS.write st.fs (get_server_filename st.base_filename sid)
          (FileContent.jsonDoc d)) } := by
  unfold save_goals
  rw [hd]
  simp [hf]

/-! ## Claim theorems about the store -/

/-- C8: for every server id that has never been loaded or cached, calling
save_goals performs no filesystem writes and leaves all files and the
in-memory cache unchanged (the whole state, filesystem included, is
returned unmodified). -/
theorem save_goals_noop_uncached (st : DBState) (sid : String)
    (copyOut : CopyOutcome) (writeOut : WriteOutcome)
    (h : lookupA sid st.server_data = none) :
    save_goals st sid copyOut writeOut = st := by
  unfold save_goals
  rw [h]

/-- C8 witness: on a concrete store with an empty cache, save_goals is the
identity. -/
theorem save_goals_noop_uncached_witness :
    save_goals { base_filename := "goals", server_data := [],
                 fs := [("other.json", FileContent.empty)] } "1"
      CopyOutcome.ok WriteOutcome.ok =
      { base_filename := "goals", server_data := [],
        fs := [("other.json", FileContent.empty)] } :=
  save_goals_noop_uncached _ "1" CopyOutcome.ok WriteOutcome.ok (by decide)

/-- C9: get_goals called twice without an intervening save returns the same
document both times, and the second call returns the state of the first
call unchanged (reading is idempotent and the second read has no side
effects). -/
theorem get_goals_idempotent (st : DBState) (sid now1 now2 : String) :
    (get_goals (get_goals st sid now1).2 sid now2).1 = (get_goals st sid now1).1 ∧
    (get_goals (get_goals st sid now1).2 sid now2).2 = (get_goals st sid now1).2 := by
  cases h : lookupA sid st.server_data with
  | some d => simp [get_goals, h]
  | none => simp [get_goals, h, lookupA_insertA_self]

/-- C2 counterexample: a backing file that exists but is empty is NOT
renamed to a timestamped quarantine name; get_goals simply overwrites it in
place with the default document, so no quarantined copy is produced. -/
theorem load_empty_no_quarantine :
    (get_goals emptyFileState "1" "20240101-000000").2.fs =
      [("goals_1.json", FileContent.jsonDoc default_data)] ∧
    FS.read (get_goals emptyFileState "1" "20240101-000000").2.fs
      "goals_1.json.backup-20240101-000000" = none := by
  constructor <;> decide

/-- C2 (amended): for a server id not yet cached, an existing backing file
that is empty is replaced in place by a fresh default document with no
quarantine copy, while a backing file with malformed (non-JSON) content is
renamed to the timestamped quarantine name (exactly one quarantined copy:
the quarantine file holds the old content and every other file is
untouched) and a fresh default document is written; in both cases
get_goals returns the default document and, being a total function, raises
no error to the caller. -/
theorem get_goals_self_healing (st : DBState) (sid now : String)
    (hnc : lookupA sid st.server_data = none) :
    (FS.read st.fs (get_server_filename st.base_filename sid) = some FileContent.empty →
      (get_goals st sid now).1 = default_data ∧
      FS.read (get_goals st sid now).2.fs (get_server_filename st.base_filename sid) =
        some (FileContent.jsonDoc default_data) ∧
      ∀ m, m ≠ get_server_filename st.base_filename sid →
        FS.read (get_goals st sid now).2.fs m = FS.read st.fs m) ∧
    (∀ s, FS.read st.fs (get_server_filename st.base_filename sid) =
        some (FileContent.malformed s) →
      (get_goals st sid now).1 = default_data ∧
      FS.read (get_goals st sid now).2.fs (get_server_filename st.base_filename sid) =
        some (FileContent.jsonDoc default_data) ∧
      FS.read (get_goals st sid now).2.fs
          (get_server_filename st.base_filename sid ++ ".backup-" ++ now) =
        some (FileContent.malformed s) ∧
      ∀ m, m ≠ get_server_filename st.base_filename sid →
        m ≠ get_server_filename st.base_filename sid ++ ".backup-" ++ now →
        FS.read (get_goals st sid now).2.fs m = FS.read st.fs m) := by
  constructor
  · intro hread
    simp only [get_goals, hnc, load_goals, hread]
    refine ⟨trivial, ?_, ?_⟩
    · exact lookupA_insertA_self _ _ _
    · intro m hm
      exact lookupA_insertA_ne _ m _ _ hm
  · intro s hread
    have hqn := quarantine_ne (get_server_filename st.base_filename sid) now
    simp only [get_goals, hnc, load_goals, hread, Option.isSome_some, if_true, FS.rename]
    refine ⟨trivial, ?_, ?_, ?_⟩
    · exact lookupA_insertA_self _ _ _
    · show lookupA _ (insertA _ _ (insertA _ _ (eraseA _ _))) = _
      rw [lookupA_insertA_ne _ _ _ _ hqn]
      exact lookupA_insertA_self _ _ _
    · intro m hm1 hm2
      show lookupA m (insertA _ _ (insertA _ _ (eraseA _ _))) = _
      rw [lookupA_insertA_ne _ m _ _ hm1, lookupA_insertA_ne _ m _ _ hm2,
        lookupA_eraseA_ne _ m _ hm1]
      rfl

/-- C2 witness: on a concrete store whose backing file holds malformed
content, get_goals quarantines the malformed content under the timestamped
name. -/
theorem get_goals_self_healing_witness :
    FS.read (get_goals malformedFileState "1" "20240101-000000").2.fs
      "goals_1.json.backup-20240101-000000" =
      some (FileContent.malformed "not json") :=
  ((get_goals_self_healing malformedFileState "1" "20240101-000000"
    (by decide)).2 "not json" (by decide)).2.2.1

/-- C3: if the write of the primary file fails during save_goals while the
backup copy step succeeded (the scenario after a prior successful save: the
primary file exists and holds the last saved content), the rollback
restores the backup over the primary, so the backing file's content after
the failed attempt equals its content before the attempt; save_goals is a
total function, modelling that no error reaches the caller. -/
theorem save_goals_rollback (st : DBState) (sid : String) (d : Doc) (c leftover : FileContent)
    (hd : lookupA sid st.server_data = some d)
    (hf : FS.read st.fs (get_server_filename st.base_filename sid) = some c) :
    FS.read (save_goals st sid CopyOutcome.ok (WriteOutcome.fail leftover)).fs
      (get_server_filename st.base_filename sid) = some c := by
  have hbn := backup_sibling_ne (get_server_filename st.base_filename sid)
  unfold save_goals
  rw [hd]
  simp only [hf]
  have hread : FS.read
      (FS.write (FS.write st.fs (get_server_filename st.base_filename sid ++ ".backup") c)
        (get_server_filename st.base_filename sid) leftover)
      (get_server_filename st.base_filename sid ++ ".backup") = some c := by
    show lookupA _ (insertA _ _ (insertA _ _ _)) = _
    rw [lookupA_insertA_ne _ _ _ _ hbn]
    exact lookupA_insertA_self _ _ _
  simp only [hread, Option.isSome_some, if_true, FS.replace, hread]
  exact lookupA_insertA_self _ _ _

/-- C3 witness: a concrete failed write after a successful save leaves the
primary file holding its previous content. -/
theorem save_goals_rollback_witness :
    FS.read (save_goals savedOnceState "1" CopyOutcome.ok
        (WriteOutcome.fail (FileContent.malformed "torn write"))).fs
      "goals_1.json" = some (FileContent.jsonDoc default_data) :=
  save_goals_rollback savedOnceState "1" default_data
    (FileContent.jsonDoc default_data) (FileContent.malformed "torn write")
    (by decide) (by decide)

/-- C6: at objective creation, the new objective's identifier is the
decimal string of the current objective count plus one, and if the
document's objective identifiers were unique before the insertion they are
unique after it. -/
theorem set_objective_id_unique (st : DBState) (sid mc ot author now : String)
    (co : CopyOutcome) (wo : WriteOutcome) (d : Doc)
    (hd : lookupA sid st.server_data = some d)
    (hnodup : (d.objectives.map Prod.fst).Nodup) :
    ∃ obj : Objective,
      lookupA sid (set_objective_impl st sid mc ot author now co wo).server_data =
        some { d with objectives :=
          (insertA (Nat.repr (d.objectives.length + 1)) obj d.objectives) } ∧
      ((insertA (Nat.repr (d.objectives.length + 1)) obj d.objectives).map Prod.fst).Nodup := by
  refine ⟨{ text := clean_text mc, original_text := ot, created_by := author,
            created_at := now, status := "active" }, ?_,
    keys_insertA_nodup _ _ _ hnodup⟩
  unfold set_objective_impl
  simp only [get_goals, hd]
  rw [(save_goals_server_data _ _ _ _).1]
  exact lookupA_insertA_self _ _ _

/-- C6 witness: creating an objective on a concrete empty document assigns
identifier one and keeps identifiers unique. -/
theorem set_objective_id_unique_witness :
    ∃ obj : Objective,
      lookupA "1" (set_objective_impl oneServerState "1" "goal text" "orig" "77" "T"
          CopyOutcome.ok WriteOutcome.ok).server_data =
        some { default_data with objectives := (insertA (Nat.repr 1) obj []) } ∧
      ((insertA (Nat.repr 1) obj ([] : List (String × Objective))).map Prod.fst).Nodup :=
  set_objective_id_unique oneServerState "1" "goal text" "orig" "77" "T"
    CopyOutcome.ok WriteOutcome.ok default_data (by decide) (by decide)

/-- C10: a progress update is appended only when its objective id exists in
the document at insertion time; when the objective id is absent the entire
state (document, cache and filesystem) is returned unchanged and nothing is
saved. -/
theorem add_progress_referential (st : DBState) (sid oid utext author now : String)
    (co : CopyOutcome) (wo : WriteOutcome) (d : Doc)
    (hd : lookupA sid st.server_data = some d) :
    (lookupA oid d.objectives = none →
      add_progress_impl st sid oid utext author now co wo = st) ∧
    (∀ o : Objective, lookupA oid d.objectives = some o →
      lookupA sid (add_progress_impl st sid oid utext author now co wo).server_data =
        some { d with updates := d.updates ++
          [{ objective_id := oid, text := utext, updated_by := author,
             updated_at := now }] }) := by
  constructor
  · intro habs
    unfold add_progress_impl
    simp only [get_goals, hd, habs, Option.isSome_none, Bool.false_eq_true, if_false]
  · intro o hpres
    unfold add_progress_impl
    simp only [get_goals, hd, hpres, Option.isSome_some, if_true]
    rw [(save_goals_server_data _ _ _ _).1]
    exact lookupA_insertA_self _ _ _

/-- C10 witness: on a concrete document, an update for a missing objective
id changes nothing, and an update for an existing objective id is appended. -/
theorem add_progress_referential_witness :
    add_progress_impl oneObjectiveState "1" "9" "made progress" "u" "T2"
        CopyOutcome.ok WriteOutcome.ok = oneObjectiveState ∧
    lookupA "1" (add_progress_impl oneObjectiveState "1" "1" "made progress" "u" "T2"
        CopyOutcome.ok WriteOutcome.ok).server_data =
      some { oneObjectiveDoc with updates := [sampleUpdate] } := by
  constructor
  · exact (add_progress_referential oneObjectiveState "1" "9" "made progress" "u" "T2"
      CopyOutcome.ok WriteOutcome.ok oneObjectiveDoc (by decide)).1 (by decide)
  · exact (add_progress_referential oneObjectiveState "1" "1" "made progress" "u" "T2"
      CopyOutcome.ok WriteOutcome.ok oneObjectiveDoc (by decide)).2 sampleObjective (by decide)

/-- C7: for distinct server ids A and B holding different cached documents
and with no backing files yet, saving A then saving B yields two distinct
backing files each holding its own server's document, and reading back
either server returns its own document: operations on one server id do not
change the document or file of the other. -/
theorem multi_tenant_isolation (st : DBState) (A B now : String) (dA dB : Doc)
    (hAB : A ≠ B) (hdocs : dA ≠ dB)
    (hA : lookupA A st.server_data = some dA)
    (hB : lookupA B st.server_data = some dB)
    (hfA : FS.read st.fs (get_server_filename st.base_filename A) = none)
    (hfB : FS.read st.fs (get_server_filename st.base_filename B) = none) :
    (get_goals (save_goals (save_goals st A CopyOutcome.ok WriteOutcome.ok)
        B CopyOutcome.ok WriteOutcome.ok) A now).1 = dA ∧
    (get_goals (save_goals (save_goals st A CopyOutcome.ok WriteOutcome.ok)
        B CopyOutcome.ok WriteOutcome.ok) B now).1 = dB ∧
    dA ≠ dB ∧
    FS.read (save_goals (save_goals st A CopyOutcome.ok WriteOutcome.ok)
        B CopyOutcome.ok WriteOutcome.ok).fs (get_server_filename st.base_filename A) =
      some (FileContent.jsonDoc dA) ∧
    FS.read (save_goals (save_goals st A CopyOutcome.ok WriteOutcome.ok)
        B CopyOutcome.ok WriteOutcome.ok).fs (get_server_filename st.base_filename B) =
      some (FileContent.jsonDoc dB) ∧
    get_server_filename st.base_filename A ≠ get_server_filename st.base_filename B := by
  have hfn : get_server_filename st.base_filename A ≠ get_server_filename st.base_filename B :=
    fun he => hAB (get_server_filename_inj st.base_filename A B he)
  have h1 : save_goals st A CopyOutcome.ok WriteOutcome.ok =
      { st with fs := (FS.write st.fs (get_server_filename st.base_filename A)
          (FileContent.jsonDoc dA)) } :=
    save_goals_fresh_write st A dA CopyOutcome.ok hA hfA
  have h2 : save_goals (save_goals st A CopyOutcome.ok WriteOutcome.ok)
      B CopyOutcome.ok WriteOutcome.ok =
      { st with fs := (FS.write (FS.write st.fs (get_server_filename st.base_filename A)
          (FileContent.jsonDoc dA)) (get_server_filename st.base_filename B)
          (FileContent.jsonDoc dB)) } := by
    rw [h1]
    refine save_goals_fresh_write _ B dB CopyOutcome.ok hB ?_
    show lookupA _ (insertA _ _ _) = none
    rw [lookupA_insertA_ne _ _ _ _ (Ne.symm hfn)]
    exact hfB
  rw [h2]
  refine ⟨?_, ?_, hdocs, ?_, ?_, hfn⟩
  · simp only [get_goals, hA]
  · simp only [get_goals, hB]
  · show lookupA _ (insertA _ _ (insertA _ _ _)) = _
    rw [lookupA_insertA_ne _ _ _ _ hfn]
    exact lookupA_insertA_self _ _ _
  · exact lookupA_insertA_self _ _ _

/-- C7 witness: on a concrete two-server store, saving both servers gives
each its own backing file and reading back returns each server's own
document. -/
theorem multi_tenant_isolation_witness :
    (get_goals (save_goals (save_goals twoServerState "A" CopyOutcome.ok WriteOutcome.ok)
        "B" CopyOutcome.ok WriteOutcome.ok) "A" "T").1 = default_data ∧
    (get_goals (save_goals (save_goals twoServerState "A" CopyOutcome.ok WriteOutcome.ok)
        "B" CopyOutcome.ok WriteOutcome.ok) "B" "T").1 = docB ∧
    default_data ≠ docB ∧
    FS.read (save_goals (save_goals twoServerState "A" CopyOutcome.ok WriteOutcome.ok)
        "B" CopyOutcome.ok WriteOutcome.ok).fs (get_server_filename "goals" "A") =
      some (FileContent.jsonDoc default_data) ∧
    FS.read (save_goals (save_goals twoServerState "A" CopyOutcome.ok WriteOutcome.ok)
        "B" CopyOutcome.ok WriteOutcome.ok).fs (get_server_filename "goals" "B") =
      some (FileContent.jsonDoc docB) ∧
    get_server_filename "goals" "A" ≠ get_server_filename "goals" "B" :=
  multi_tenant_isolation twoServerState "A" "B" "T" default_data docB
    (by decide) (by decide) (by decide) (by decide) (by decide) (by decide)

/-! ## Claim theorems about the formatter -/

theorem str_ne_empty_of_length_pos {s : String} (h : 0 < s.length) : s ≠ "" := by
  intro he
  rw [he, String.length_empty] at h
  exact Nat.lt_irrefl 0 h

theorem formatSectionText_eq_append (sec : String) :
    ∃ x : String, formatSectionText sec = x ++ "\n\n" := by
  unfold formatSectionText
  cases breakAtChar ':' sec.data with
  | none => exact ⟨sec, rfl⟩
  | some p =>
    obtain ⟨t, c⟩ := p
    exact ⟨_, rfl⟩

theorem formatSectionText_length_pos (sec : String) : 0 < (formatSectionText sec).length := by
  obtain ⟨x, hx⟩ := formatSectionText_eq_append sec
  rw [hx, String.length_append]
  have h2 : ("\n\n" : String).length = 2 := by decide
  omega

theorem formatSectionText_ne_empty (sec : String) : formatSectionText sec ≠ "" :=
  str_ne_empty_of_length_pos (formatSectionText_length_pos sec)

theorem chunkLoop_good (L : Nat) (S : List String) :
    ∀ (secs : List String), (∀ s ∈ secs, s ∈ S) →
    ∀ (chunks : List String),
      (∀ c ∈ chunks, c.length ≤ L ∨ ∃ s ∈ S, c = pyStrip (formatSectionText s) ∧
        L < (formatSectionText s).length) →
    ∀ (current : String),
      (current.length ≤ L ∨ ∃ s ∈ S, current = formatSectionText s ∧ L < current.length) →
    ∀ c ∈ chunkLoop L secs chunks current,
      c.length ≤ L ∨ ∃ s ∈ S, c = pyStrip (formatSectionText s) ∧
        L < (formatSectionText s).length := by
  intro secs
  induction secs with
  | nil =>
    intro _ chunks hchunks current hcur c hc
    unfold chunkLoop at hc
    by_cases he : current = ""
    · rw [if_pos he] at hc
      exact hchunks c hc
    · rw [if_neg he] at hc
      rcases List.mem_append.mp hc with h | h
      · exact hchunks c h
      · rw [List.mem_singleton.mp h]
        rcases hcur with h1 | ⟨s, hs, he2, hlen⟩
        · exact Or.inl (Nat.le_trans (pyStrip_length_le current) h1)
        · right
          exact ⟨s, hs, by rw [he2], by rw [← he2]; exact hlen⟩
  | cons sec rest ih =>
    intro hsub chunks hchunks current hcur c hc
    have hsec : sec ∈ S := hsub sec (List.mem_cons_self sec rest)
    have hsub2 : ∀ s ∈ rest, s ∈ S := fun s hs => hsub s (List.mem_cons_of_mem sec hs)
    unfold chunkLoop at hc
    by_cases hover : L < (current ++ formatSectionText sec).length
    · rw [if_pos hover] at hc
      by_cases he : current = ""
      · rw [if_pos he] at hc
        refine ih hsub2 chunks hchunks (formatSectionText sec) ?_ c hc
        right
        refine ⟨sec, hsec, rfl, ?_⟩
        subst he
        rwa [empty_append_str] at hover
      · rw [if_neg he] at hc
        refine ih hsub2 (chunks ++ [pyStrip current]) ?_ (formatSectionText sec) ?_ c hc
        · intro c2 hc2
          rcases List.mem_append.mp hc2 with h | h
          · exact hchunks c2 h
          · rw [List.mem_singleton.mp h]
            rcases hcur with h1 | ⟨s, hs, he2, hlen⟩
            · exact Or.inl (Nat.le_trans (pyStrip_length_le current) h1)
            · right
              exact ⟨s, hs, by rw [he2], by rw [← he2]; exact hlen⟩
        · by_cases hfl : (formatSectionText sec).length ≤ L
          · exact Or.inl hfl
          · right
            exact ⟨sec, hsec, rfl, Nat.lt_of_not_le hfl⟩
    · rw [if_neg hover] at hc
      refine ih hsub2 chunks hchunks (current ++ formatSectionText sec) ?_ c hc
      exact Or.inl (Nat.le_of_not_lt hover)

/-- C1: every chunk returned by format_section has length at most the
limit, except that a chunk holding a single section whose formatted form
alone exceeds the limit may exceed it (such a chunk is exactly that one
formatted section, stripped); in particular no chunk combines a section
with a non-empty chunk when doing so would cross the limit. -/
theorem format_section_chunk_bound (text : String) (L : Nat) (c : String)
    (hc : c ∈ format_section text L) :
    c.length ≤ L ∨ ∃ s ∈ sectionsOf (clean_text text),
      c = pyStrip (formatSectionText s) ∧ L < (formatSectionText s).length := by
  refine chunkLoop_good L (sectionsOf (clean_text text)) (sectionsOf (clean_text text))
    (fun s hs => hs) [] ?_ "" ?_ c hc
  · intro c2 hc2
    cases hc2
  · left
    rw [String.length_empty]
    exact Nat.zero_le L

/-- C1 witness: with limit one, the single section of the text "ab"
formats to a string longer than the limit and becomes its own oversized
chunk. -/
theorem format_section_chunk_bound_witness :
    ("ab" : String).length ≤ 1 ∨ ∃ s ∈ sectionsOf (clean_text "ab"),
      ("ab" : String) = pyStrip (formatSectionText s) ∧ 1 < (formatSectionText s).length :=
  format_section_chunk_bound "ab" 1 "ab" (by decide)

theorem sectionGroups_inv (lines : List String) :
    ∀ (sections : List (List String)) (current : List String),
    (∀ g ∈ sections, g ≠ [] ∧ ∀ l ∈ g.tail, isSectionStart l = false) →
    (∀ g ∈ sections.tail, ∃ hd tl, g = hd :: tl ∧ isSectionStart hd = true) →
    (∀ l ∈ current.tail, isSectionStart l = false) →
    (sections ≠ [] → ∃ hd tl, current = hd :: tl ∧ isSectionStart hd = true) →
    (∀ g ∈ sectionGroups lines sections current,
      g ≠ [] ∧ ∀ l ∈ g.tail, isSectionStart l = false) ∧
    (∀ g ∈ (sectionGroups lines sections current).tail,
      ∃ hd tl, g = hd :: tl ∧ isSectionStart hd = true) := by
  induction lines with
  | nil =>
    intro sections current h1 h2 h3 h4
    unfold sectionGroups
    by_cases he : current = []
    · rw [if_pos he]
      exact ⟨h1, h2⟩
    · rw [if_neg he]
      constructor
      · intro g hg
        rcases List.mem_append.mp hg with h | h
        · exact h1 g h
        · rw [List.mem_singleton.mp h]
          exact ⟨he, h3⟩
      · intro g hg
        cases sections with
        | nil =>
          simp only [List.nil_append, List.tail_cons] at hg
          cases hg
        | cons s0 ss =>
          simp only [List.cons_append, List.tail_cons] at hg
          rcases List.mem_append.mp hg with h | h
          · exact h2 g h
          · rw [List.mem_singleton.mp h]
            rcases h4 (by simp) with ⟨hd, tl, hcur, hmark⟩
            exact ⟨hd, tl, hcur, hmark⟩
  | cons rawLine rest ih =>
    intro sections current h1 h2 h3 h4
    unfold sectionGroups
    by_cases hb : pyStrip rawLine = ""
    · rw [if_pos hb]
      exact ih sections current h1 h2 h3 h4
    · rw [if_neg hb]
      by_cases hm : isSectionStart (pyStrip rawLine) = true
      · rw [if_pos hm]
        by_cases hce : current = []
        · rw [if_pos hce]
          refine ih sections [pyStrip rawLine] h1 h2 ?_ ?_
          · intro l hl
            cases hl
          · intro hs
            exact ⟨pyStrip rawLine, [], rfl, hm⟩
        · rw [if_neg hce]
          refine ih (sections ++ [current]) [pyStrip rawLine] ?_ ?_ ?_ ?_
          · intro g hg
            rcases List.mem_append.mp hg with h | h
            · exact h1 g h
            · rw [List.mem_singleton.mp h]
              exact ⟨hce, h3⟩
          · intro g hg
            cases sections with
            | nil =>
              simp only [List.nil_append, List.tail_cons] at hg
              cases hg
            | cons s0 ss =>
              simp only [List.cons_append, List.tail_cons] at hg
              rcases List.mem_append.mp hg with h | h
              · exact h2 g h
              · rw [List.mem_singleton.mp h]
                rcases h4 (by simp) with ⟨hd, tl, hcur, hmark⟩
                exact ⟨hd, tl, hcur, hmark⟩
          · intro l hl
            cases hl
          · intro hs
            exact ⟨pyStrip rawLine, [], rfl, hm⟩
      · rw [if_neg hm]
        refine ih sections (current ++ [pyStrip rawLine]) h1 h2 ?_ ?_
        · intro l hl
          cases current with
          | nil =>
            simp only [List.nil_append, List.tail_cons] at hl
            cases hl
          | cons c0 cs =>
            simp only [List.cons_append, List.tail_cons] at hl
            rcases List.mem_append.mp hl with h | h
            · exact h3 l (by simpa using h)
            · rw [List.mem_singleton.mp h]
              exact Bool.eq_false_iff.mpr hm
        · intro hs
          rcases h4 hs with ⟨hd, tl, hcur, hmark⟩
          exact ⟨hd, tl ++ [pyStrip rawLine], by rw [hcur]; rfl, hmark⟩

/-- C4 (amended): in the section-splitting loop of format_section, a
stripped non-blank line starting with one of the markers checked by the
code (exactly the literals for digits one, two and three) begins a new
section, while every other line, including lines starting with any other
digit marker, accumulates into the current section: no marker line ever
appears past the head of a section group, and every group after the first
begins with a marker line. -/
theorem sectionGroups_boundary (text : String) :
    (∀ g ∈ sectionGroups (splitLines text) [] [],
      g ≠ [] ∧ ∀ l ∈ g.tail, isSectionStart l = false) ∧
    (∀ g ∈ (sectionGroups (splitLines text) [] []).tail,
      ∃ hd tl, g = hd :: tl ∧ isSectionStart hd = true) := by
  refine sectionGroups_inv (splitLines text) [] [] ?_ ?_ ?_ ?_
  · intro g hg
    cases hg
  · intro g hg
    cases hg
  · intro l hl
    cases hl
  · intro hs
    exact absurd rfl hs

/-- C4 counterexample: a line starting with the digit-four marker does NOT
begin a new section (the two lines stay in one section), while the same
text with a digit-three marker is split into two sections; the claim's
generalization to every digit fails on the code. -/
theorem sectionGroups_digit_counterexample :
    sectionsOf "1. A\n4. B" = ["1. A\n4. B"] ∧
    sectionsOf "1. A\n3. B" = ["1. A", "3. B"] := by
  constructor <;> decide

/-- C4 witness: on the concrete text with lines "1. A", "b" and "2. C",
the non-marker line "b" sits past the head of the first group and the
second group begins with the marker line "2. C". -/
theorem sectionGroups_boundary_witness :
    isSectionStart "b" = false ∧
    ∃ hd tl, ["2. C"] = hd :: tl ∧ isSectionStart hd = true := by
  constructor
  · exact ((sectionGroups_boundary "1. A\nb\n2. C").1 ["1. A", "b"] (by decide)).2 "b" (by decide)
  · exact (sectionGroups_boundary "1. A\nb\n2. C").2 ["2. C"] (by decide)

theorem sectionGroups_ne_nil (lines : List String) :
    ∀ (sections : List (List String)) (current : List String),
    (sections ≠ [] ∨ current ≠ [] ∨ ∃ l ∈ lines, pyStrip l ≠ "") →
    sectionGroups lines sections current ≠ [] := by
  induction lines with
  | nil =>
    intro sections current h
    unfold sectionGroups
    by_cases he : current = []
    · rw [if_pos he]
      rcases h with h | h | ⟨l, hl, _⟩
      · exact h
      · exact absurd he h
      · cases hl
    · rw [if_neg he]
      simp
  | cons rawLine rest ih =>
    intro sections current h
    unfold sectionGroups
    by_cases hb : pyStrip rawLine = ""
    · rw [if_pos hb]
      apply ih
      rcases h with h | h | ⟨l, hl, hne⟩
      · exact Or.inl h
      · exact Or.inr (Or.inl h)
      · rcases List.mem_cons.mp hl with h2 | h2
        · rw [h2] at hne
          exact absurd hb hne
        · exact Or.inr (Or.inr ⟨l, h2, hne⟩)
    · rw [if_neg hb]
      by_cases hm : isSectionStart (pyStrip rawLine) = true
      · rw [if_pos hm]
        by_cases hce : current = []
        · rw [if_pos hce]
          apply ih
          right; left
          simp
        · rw [if_neg hce]
          apply ih
          right; left
          simp
      · rw [if_neg hm]
        apply ih
        right; left
        simp

theorem chunkLoop_ne_nil (L : Nat) :
    ∀ (secs chunks : List String) (current : String),
    (chunks ≠ [] ∨ current ≠ "" ∨ secs ≠ []) →
    chunkLoop L secs chunks current ≠ [] := by
  intro secs
  induction secs with
  | nil =>
    intro chunks current h
    unfold chunkLoop
    by_cases he : current = ""
    · rw [if_pos he]
      rcases h with h | h | h
      · exact h
      · exact absurd he h
      · exact absurd rfl h
    · rw [if_neg he]
      simp
  | cons sec rest ih =>
    intro chunks current h
    unfold chunkLoop
    by_cases hover : L < (current ++ formatSectionText sec).length
    · rw [if_pos hover]
      by_cases he : current = ""
      · rw [if_pos he]
        apply ih
        right; left
        exact formatSectionText_ne_empty sec
      · rw [if_neg he]
        apply ih
        left
        simp
    · rw [if_neg hover]
      apply ih
      right; left
      apply str_ne_empty_of_length_pos
      rw [String.length_append]
      have := formatSectionText_length_pos sec
      omega

theorem chunkLoop_single (L : Nat) :
    ∀ (secs : List String) (current : String),
    current.length + totalFormattedLength secs ≤ L →
    (current ≠ "" ∨ secs ≠ []) →
    ∃ c, chunkLoop L secs [] current = [c] := by
  intro secs
  induction secs with
  | nil =>
    intro current hlen hne
    rcases hne with h | h
    · refine ⟨pyStrip current, ?_⟩
      unfold chunkLoop
      rw [if_neg h]
      rfl
    · exact absurd rfl h
  | cons sec rest ih =>
    intro current hlen hne
    have hfs := formatSectionText_length_pos sec
    have htot : totalFormattedLength (sec :: rest) =
        (formatSectionText sec).length + totalFormattedLength rest := by
      unfold totalFormattedLength
      simp
    rw [htot] at hlen
    have hnot : ¬ L < (current ++ formatSectionText sec).length := by
      rw [String.length_append]
      omega
    unfold chunkLoop
    rw [if_neg hnot]
    apply ih
    · rw [String.length_append]
      omega
    · left
      apply str_ne_empty_of_length_pos
      rw [String.length_append]
      omega

/-- C5 counterexample: the input consisting of a single newline is a
non-empty string whose formatted text is far below the limit, yet
format_section returns the empty chunk list (every line strips to blank,
so no section is ever formed). -/
theorem format_section_nonempty_counterexample :
    format_section "\n" 1024 = [] := by
  decide

/-- C5 (amended): for every input whose cleaned text has at least one line
that is non-blank after stripping, format_section returns a non-empty
sequence of chunks; if moreover the total length of the formatted sections
is at most the limit, it returns exactly one chunk. -/
theorem format_section_nonempty (text : String) (L : Nat)
    (h : ∃ l ∈ splitLines (clean_text text), pyStrip l ≠ "") :
    format_section text L ≠ [] ∧
    (totalFormattedLength (sectionsOf (clean_text text)) ≤ L →
      ∃ c, format_section text L = [c]) := by
  have hg : sectionGroups (splitLines (clean_text text)) [] [] ≠ [] :=
    sectionGroups_ne_nil (splitLines (clean_text text)) [] [] (Or.inr (Or.inr h))
  have hsec : sectionsOf (clean_text text) ≠ [] := by
    unfold sectionsOf
    intro hcon
    exact hg (List.map_eq_nil_iff.mp hcon)
  constructor
  · unfold format_section
    exact chunkLoop_ne_nil L _ [] "" (Or.inr (Or.inr hsec))
  · intro htot
    unfold format_section
    apply chunkLoop_single
    · rw [String.length_empty]
      omega
    · exact Or.inr hsec

/-- C5 witness: the concrete input "hi" has a non-blank line, so it yields
a non-empty chunk list, and its total formatted length is within the
default limit, so exactly one chunk. -/
theorem format_section_nonempty_witness :
    format_section "hi" 1024 ≠ [] ∧
    (totalFormattedLength (sectionsOf (clean_text "hi")) ≤ 1024 →
      ∃ c, format_section "hi" 1024 = [c]) :=
  format_section_nonempty "hi" 1024 (by decide)

end GoalsBot
